import Mathlib

/-!
Verification of `nomenclature/processor/generic.py`: the `AggregationItem`
data model, the `Aggregator` processor with its construction-time conflict
validators, the `rename_mapping` derived view, the `from_file` loader, and
the `apply` operation.

The embedding is shallow: Python dicts are modelled as association lists
with insertion-order semantics (`dictInsert` updates an existing key in
place, preserving position, and appends a fresh key at the end, matching
CPython `dict`); pydantic construction is modelled as an `Except` returning
either the validated value or the structured error; `yaml.safe_load` and
file I/O are modelled as an `Except String FileInput` argument to
`from_file` (the `.error` case stands for any exception raised by
`open`/`safe_load`, carrying the exception's message text).
-/

namespace Nomenclature

/-- Model of `AggregationItem` from generic.py: a pydantic `BaseModel` with fields
`name : str` and `components : list[str]` and no declared validators or
constraints. -/
structure AggregationItem where
  name : String
  components : List String
deriving Repr, DecidableEq

/-- Pydantic construction of an `AggregationItem`. The source class body
declares only the two typed fields — no `field_validator`, no length or
emptiness constraint — so for well-typed input (any string, any list of
strings) pydantic validation always succeeds. -/
def AggregationItem.construct (name : String) (components : List String) :
    Except String AggregationItem :=
  .ok ⟨name, components⟩

/-- The structured conflict error raised by `_validate_items` via
`PydanticCustomError`: it carries `type` (the conflict kind, `"target"` or
`"component"`), the list of duplicated values, and the originating file. -/
structure ConflictErr where
  kind : String
  duplicates : List String
  file : String
deriving Repr, DecidableEq

/-- The keys of `Counter(items)`: the distinct values of `items` in
first-encounter order (Python dicts preserve insertion order). -/
def counterKeys : List String → List String
  | [] => []
  | x :: xs => x :: (counterKeys xs).filter (fun y => y ≠ x)

/-- The duplicates computed by `_validate_items`:
`[item for item, count in Counter(items).items() if count > 1]`.
`Counter` iterates keys in first-encounter order, so this is the list of
distinct values, in first-occurrence order, whose count exceeds one. -/
def pyDuplicates (items : List String) : List String :=
  (counterKeys items).filter (fun x => 1 < items.count x)

/-- Model of `_validate_items(items, info, _type)` from generic.py: computes the
duplicates and raises the structured conflict error when the list of
duplicates is non-empty (Python truthiness of a list). -/
def validate_items (items : List String) (file : String) (kind : String) :
    Option ConflictErr :=
  let dups := pyDuplicates items
  if dups.isEmpty then none else some ⟨kind, dups, file⟩

/-- The `Aggregator` model: fields `file`, `dimension`, `mapping`
(generic.py lines 27-30). `file` holds the relative path passed at
construction. -/
structure Aggregator where
  file : String
  dimension : String
  mapping : List AggregationItem
deriving Repr, DecidableEq

/-- Body of `Aggregator.validate_target_names`: collect every item's
`name`, in item order, and run `_validate_items` with kind `"target"`. -/
def validate_target_names (mapping : List AggregationItem) (file : String) :
    Option ConflictErr :=
  validate_items (mapping.map (·.name)) file "target"

/-- The flattened component list built inside
`Aggregator.validate_components`:
`all_components = list(); for item in v: all_components.extend(item.components)`. -/
def allComponents (mapping : List AggregationItem) : List String :=
  mapping.foldl (fun acc it => acc ++ it.components) []

/-- Body of `Aggregator.validate_components`: flatten all components in
item and within-item order and run `_validate_items` with kind
`"component"`. -/
def validate_components (mapping : List AggregationItem) (file : String) :
    Option ConflictErr :=
  validate_items (allComponents mapping) file "component"

/-- Pydantic construction of an `Aggregator`. The two `field_validator`s on
`mapping` run as a chain in declaration order — `validate_target_names`
first, then `validate_components` — and the chain stops at the first
validator that raises, so at most one conflict error is produced. The
validators read `info.data["file"]`, i.e. the already-validated `file`
field. -/
def Aggregator.construct (file dimension : String)
    (mapping : List AggregationItem) : Except ConflictErr Aggregator :=
  match validate_target_names mapping file with
  | some e => .error e
  | none =>
    match validate_components mapping file with
    | some e => .error e
    | none => .ok ⟨file, dimension, mapping⟩

/-- Insertion into a CPython `dict`: an existing key is updated in place
(its position among the keys is unchanged), a fresh key is appended at the
end. -/
def dictInsert (d : List (String × String)) (k v : String) :
    List (String × String) :=
  if d.any (fun p => p.1 = k) then
    d.map (fun p => if p.1 = k then (k, v) else p)
  else d ++ [(k, v)]

/-- The inner loop of `Aggregator.rename_mapping` for one item:
`for c in item.components: rename_dict[c] = item.name`. -/
def insertItem (d : List (String × String)) (it : AggregationItem) :
    List (String × String) :=
  it.components.foldl (fun d c => dictInsert d c it.name) d

/-- The body of `Aggregator.rename_mapping` viewed as a pure function of the item
list: start from an empty dict and insert every component of every item,
mapped to that item's name, in order. -/
def renameMapping (mapping : List AggregationItem) : List (String × String) :=
  mapping.foldl insertItem []

/-- The `rename_mapping` property of `Aggregator` (generic.py lines
51-59): recomputed from `self.mapping` on every access. -/
def Aggregator.rename_mapping (a : Aggregator) : List (String × String) :=
  renameMapping a.mapping

/-! ### The loader `Aggregator.from_file`

The `try` block of `from_file` covers opening and parsing the file,
reading `mapping_input["aggregate"]`, and building the raw item list; an
exception there is re-raised as `ValueError(f"{error} in {relpath}")`.
The `return cls(...)` statement sits AFTER the `try`/`except`: evaluating
`mapping_input["dimension"]` there can raise a bare `KeyError`, and the
pydantic construction can raise the structured conflict error; neither is
wrapped. -/

/-- Errors observable from `from_file`. `wrapped` is the
`ValueError(f"{error} in {get_relative_path(file)}")` raised inside the
`except` clause; `keyError` is a bare Python `KeyError` escaping from
`mapping_input["dimension"]` in the `return` statement; `conflict` is the
structured validation error escaping from pydantic construction. -/
inductive LoadErr where
  | wrapped (msg : String)
  | keyError (key : String)
  | conflict (e : ConflictErr)
deriving Repr, DecidableEq

/-- Discriminator for the wrapped (generic load error) case. -/
def LoadErr.isWrapped : LoadErr → Bool
  | .wrapped _ => true
  | _ => false

/-- The parsed content of the configuration file, as `yaml.safe_load`
returns it: an optional `dimension` entry and an optional `aggregate`
entry whose elements are mappings, here insertion-ordered lists of
key/value pairs (a multi-key element is a list with more than one pair). -/
structure FileInput where
  dimension : Option String
  aggregate : Option (List (List (String × List String)))
deriving Repr, DecidableEq

/-- The loop building `mapping_list` inside the `try` block:
`dict(name=list(item)[0], components=list(item.values())[0])` takes the
FIRST key and the FIRST value of each element; an empty element makes
`list(item)[0]` raise `IndexError("list index out of range")`. -/
def buildItems : List (List (String × List String)) →
    Except String (List AggregationItem)
  | [] => .ok []
  | item :: rest =>
    match item with
    | [] => .error "list index out of range"
    | (k, v) :: _ =>
      match buildItems rest with
      | .error m => .error m
      | .ok items => .ok (⟨k, v⟩ :: items)

/-- Model of `Aggregator.from_file` (generic.py lines 74-104). The first argument
models the outcome of `open` + `yaml.safe_load`: `.error msg` stands for
any exception raised there (file-not-found, malformed YAML) with message
`msg`; `relpath` is `get_relative_path(file)`. A missing `aggregate` key
raises `KeyError("aggregate")` inside the `try` (str rendering
`'aggregate'`), so it is wrapped; a missing `dimension` key and a
construction-time conflict occur in the `return` statement, after the
`try`, and escape unwrapped. -/
def from_file (readResult : Except String FileInput) (relpath : String) :
    Except LoadErr Aggregator :=
  match readResult with
  | .error msg => .error (.wrapped (msg ++ " in " ++ relpath))
  | .ok input =>
    match input.aggregate with
    | none => .error (.wrapped ("'aggregate'" ++ " in " ++ relpath))
    | some agg =>
      match buildItems agg with
      | .error msg => .error (.wrapped (msg ++ " in " ++ relpath))
      | .ok mappingList =>
        match input.dimension with
        | none => .error (.keyError "dimension")
        | some dim =>
          match Aggregator.construct relpath dim mappingList with
          | .error e => .error (.conflict e)
          | .ok a => .ok a

/-! ### The dataset and `Aggregator.apply`

The dataset type `IamDataFrame` and its `rename` operation live in the
external `pyam` package; the spec treats them as a collaborator with a
stated contract. -/

/-- Modelled from the spec: the external `pyam.IamDataFrame`, reduced to
what the spec's rename contract needs — a table of rows, each row an
assignment of a value to each named dimension. -/
structure IamDataFrame where
  rows : List (List (String × String))
deriving Repr, DecidableEq

/-- Modelled from the spec: relabeling of a single (dimension, value)
cell. A cell on the renamed dimension whose value is a key of the rename
dict gets the dict's target label; any other cell — other dimension, or a
value not present as a key — passes through unchanged. -/
def renamePair (dim : String) (rd : List (String × String))
    (p : String × String) : String × String :=
  if p.1 = dim then (p.1, (List.lookup p.2 rd).getD p.2) else p

/-- Modelled from the spec: relabeling of one row, cell by cell. -/
def renameRow (dim : String) (rd : List (String × String))
    (row : List (String × String)) : List (String × String) :=
  row.map (renamePair dim rd)

/-- Modelled from the spec: `IamDataFrame.rename(mapping,
check_duplicates)`, the external rename operation. It returns a NEW
dataframe (functional update; the receiver is not mutated), applying each
dimension's rename dict to every row. The spec leaves the
`check_duplicates=True` behavior outside this component's scope — this
component only ever passes `False`, requesting no duplicate-row
checking/merging — so the model performs the plain relabeling for either
flag value and merely records that the flag is part of the call. -/
def IamDataFrame.rename (df : IamDataFrame)
    (m : List (String × List (String × String))) (check_duplicates : Bool) :
    IamDataFrame :=
  ⟨df.rows.map (fun row => m.foldl (fun r q => renameRow q.1 q.2 r) row)⟩

/-- Model of `Aggregator.apply` (generic.py lines 32-49):
`df.rename({self.dimension: self.rename_mapping}, check_duplicates=False)`
— the singleton dict is the one-pair list. -/
def Aggregator.apply (a : Aggregator) (df : IamDataFrame) : IamDataFrame :=
  df.rename [(a.dimension, a.rename_mapping)] false

/-! ### Lemmas about duplicate detection -/

theorem mem_counterKeys {x : String} : ∀ {l : List String},
    x ∈ counterKeys l ↔ x ∈ l := by
  intro l
  induction l with
  | nil => simp [counterKeys]
  | cons a l ih =>
    simp only [counterKeys, List.mem_cons, List.mem_filter, ih]
    by_cases hx : x = a
    · simp [hx]
    · simp [hx]

theorem mem_pyDuplicates {x : String} {items : List String} :
    x ∈ pyDuplicates items ↔ 1 < items.count x := by
  unfold pyDuplicates
  rw [List.mem_filter, mem_counterKeys]
  constructor
  · intro h
    simpa using h.2
  · intro h
    refine ⟨?_, by simpa using h⟩
    by_contra hx
    rw [← List.count_eq_zero] at hx
    omega

theorem pyDuplicates_eq_nil {items : List String} :
    pyDuplicates items = [] ↔ items.Nodup := by
  rw [List.nodup_iff_count_le_one, List.eq_nil_iff_forall_not_mem]
  constructor
  · intro h a
    have := h a
    rw [mem_pyDuplicates] at this
    omega
  · intro h a
    rw [mem_pyDuplicates]
    have := h a
    omega

theorem validate_items_eq_none {items : List String} {file kind : String} :
    validate_items items file kind = none ↔ items.Nodup := by
  unfold validate_items
  rw [← pyDuplicates_eq_nil]
  cases h : pyDuplicates items <;> simp [h]

theorem validate_items_eq_some {items : List String} {file kind : String}
    (h : ¬ items.Nodup) :
    validate_items items file kind = some ⟨kind, pyDuplicates items, file⟩ := by
  unfold validate_items
  rw [← pyDuplicates_eq_nil] at h
  cases hd : pyDuplicates items with
  | nil => exact absurd hd h
  | cons a l => simp [hd]

/-! ### Lemmas about construction -/

theorem construct_target_error {file dim : String}
    {mapping : List AggregationItem}
    (h : ¬ (mapping.map AggregationItem.name).Nodup) :
    Aggregator.construct file dim mapping =
      .error ⟨"target", pyDuplicates (mapping.map AggregationItem.name), file⟩ := by
  unfold Aggregator.construct validate_target_names
  rw [validate_items_eq_some h]

theorem construct_component_error {file dim : String}
    {mapping : List AggregationItem}
    (hn : (mapping.map AggregationItem.name).Nodup)
    (hc : ¬ (allComponents mapping).Nodup) :
    Aggregator.construct file dim mapping =
      .error ⟨"component", pyDuplicates (allComponents mapping), file⟩ := by
  unfold Aggregator.construct validate_target_names validate_components
  rw [validate_items_eq_none.mpr hn, validate_items_eq_some hc]

theorem construct_ok {file dim : String} {mapping : List AggregationItem}
    (hn : (mapping.map AggregationItem.name).Nodup)
    (hc : (allComponents mapping).Nodup) :
    Aggregator.construct file dim mapping = .ok ⟨file, dim, mapping⟩ := by
  unfold Aggregator.construct validate_target_names validate_components
  rw [validate_items_eq_none.mpr hn, validate_items_eq_none.mpr hc]

theorem construct_ok_inv {file dim : String} {mapping : List AggregationItem}
    {a : Aggregator}
    (h : Aggregator.construct file dim mapping = .ok a) :
    a = ⟨file, dim, mapping⟩ ∧ (mapping.map AggregationItem.name).Nodup ∧
      (allComponents mapping).Nodup := by
  unfold Aggregator.construct validate_target_names validate_components at h
  cases ht : validate_items (mapping.map AggregationItem.name) file "target" with
  | some e => rw [ht] at h; exact absurd h (by simp)
  | none =>
    rw [ht] at h
    cases hcv : validate_items (allComponents mapping) file "component" with
    | some e => rw [hcv] at h; exact absurd h (by simp)
    | none =>
      rw [hcv] at h
      refine ⟨by injection h with h; exact h.symm, ?_, ?_⟩
      · exact validate_items_eq_none.mp ht
      · exact validate_items_eq_none.mp hcv

/-! ### Lemmas about the rename dict -/

theorem lookup_map_update_self {d : List (String × String)} {k v : String}
    (h : d.any (fun p => p.1 = k)) :
    List.lookup k (d.map (fun p => if p.1 = k then (k, v) else p)) = some v := by
  induction d with
  | nil => simp at h
  | cons p d ih =>
    obtain ⟨pk, pv⟩ := p
    by_cases hp : pk = k
    · rw [List.map_cons, if_pos hp]
      simp [List.lookup]
    · rw [List.map_cons, if_neg hp]
      simp only [List.any_cons, decide_eq_true_eq, Bool.or_eq_true] at h
      rcases h with h | h
      · exact absurd h hp
      · have hk : (k == pk) = false := by
          simpa [beq_iff_eq] using fun he => hp he.symm
        simpa [List.lookup, hk] using ih h

theorem lookup_map_update_other {d : List (String × String)} {k k' v : String}
    (hne : k' ≠ k) :
    List.lookup k' (d.map (fun p => if p.1 = k then (k, v) else p)) =
      List.lookup k' d := by
  induction d with
  | nil => rfl
  | cons p d ih =>
    obtain ⟨pk, pv⟩ := p
    by_cases hp : pk = k
    · rw [List.map_cons, if_pos hp]
      have h1 : (k' == k) = false := by simpa [beq_iff_eq] using hne
      have h2 : (k' == pk) = false := by
        simpa [beq_iff_eq] using fun he => hne (he.trans hp)
      simp [List.lookup, h1, h2, ih]
    · rw [List.map_cons, if_neg hp]
      cases hk : k' == pk <;> simp [List.lookup, hk, ih]

theorem lookup_append_single {d : List (String × String)} {k k' v : String} :
    List.lookup k' (d ++ [(k, v)]) =
      ((List.lookup k' d).or (if k' = k then some v else none)) := by
  induction d with
  | nil =>
    by_cases h : k' = k
    · have hk : (k' == k) = true := by simpa [beq_iff_eq] using h
      simp [List.lookup, hk, h]
    · have hk : (k' == k) = false := by simpa [beq_iff_eq] using h
      simp [List.lookup, hk, h]
  | cons p d ih =>
    obtain ⟨pk, pv⟩ := p
    cases hk : k' == pk <;> simp [List.lookup, hk, ih]

theorem lookup_eq_none_of_not_any {d : List (String × String)} {k : String}
    (h : ¬ d.any (fun p => p.1 = k)) : List.lookup k d = none := by
  induction d with
  | nil => rfl
  | cons p d ih =>
    obtain ⟨pk, pv⟩ := p
    simp only [List.any_cons, decide_eq_true_eq, Bool.or_eq_true, not_or] at h
    have hk : (k == pk) = false := by
      simpa [beq_iff_eq] using fun he => h.1 he.symm
    simpa [List.lookup, hk] using ih h.2

theorem lookup_dictInsert (d : List (String × String)) (k v k' : String) :
    List.lookup k' (dictInsert d k v) =
      if k' = k then some v else List.lookup k' d := by
  unfold dictInsert
  by_cases hany : d.any (fun p => p.1 = k)
  · rw [if_pos hany]
    by_cases hk : k' = k
    · rw [if_pos hk, hk, lookup_map_update_self hany]
    · rw [if_neg hk, lookup_map_update_other hk]
  · rw [if_neg hany, lookup_append_single]
    by_cases hk : k' = k
    · rw [if_pos hk, if_pos hk, hk, lookup_eq_none_of_not_any hany, Option.none_or]
    · rw [if_neg hk, if_neg hk, Option.or_none]

theorem lookup_insertItem (it : AggregationItem) (x : String) :
    ∀ d, List.lookup x (insertItem d it) =
      if x ∈ it.components then some it.name else List.lookup x d := by
  unfold insertItem
  generalize it.components = cs
  induction cs with
  | nil => simp
  | cons c cs ih =>
    intro d
    rw [List.foldl_cons, ih, lookup_dictInsert]
    by_cases h1 : x ∈ cs
    · simp [h1]
    · by_cases h2 : x = c <;> simp [h1, h2]

theorem lookup_foldl_insertItem (mapping : List AggregationItem) (x : String) :
    ∀ d, List.lookup x (mapping.foldl insertItem d) =
      ((mapping.reverse.find? (fun it => it.components.contains x)).map
        AggregationItem.name).or (List.lookup x d) := by
  induction mapping with
  | nil => simp
  | cons it rest ih =>
    intro d
    rw [List.foldl_cons, ih, List.reverse_cons, List.find?_append]
    cases hr : rest.reverse.find? (fun it => it.components.contains x) with
    | some it' => simp
    | none =>
      rw [lookup_insertItem]
      by_cases hx : x ∈ it.components
      · have : it.components.contains x = true := by
          simpa [List.contains, List.elem_iff] using hx
        simp [hx, List.find?, this]
      · have : it.components.contains x = false := by
          simpa [List.contains, List.elem_iff] using hx
        simp [hx, List.find?, this]

theorem lookup_renameMapping (mapping : List AggregationItem) (x : String) :
    List.lookup x (renameMapping mapping) =
      (mapping.reverse.find? (fun it => it.components.contains x)).map
        AggregationItem.name := by
  rw [renameMapping, lookup_foldl_insertItem]
  simp [List.lookup]

/-! ### Lemmas about the flattened component list -/

theorem foldl_append_components (mapping : List AggregationItem) :
    ∀ acc, mapping.foldl (fun acc it => acc ++ it.components) acc =
      acc ++ mapping.flatMap AggregationItem.components := by
  induction mapping with
  | nil => simp
  | cons hd tl ih =>
    intro acc
    rw [List.foldl_cons, ih, List.flatMap_cons, List.append_assoc]

theorem allComponents_eq_flatMap (mapping : List AggregationItem) :
    allComponents mapping = mapping.flatMap AggregationItem.components := by
  rw [allComponents, foldl_append_components, List.nil_append]

theorem allComponents_cons (hd : AggregationItem)
    (tl : List AggregationItem) :
    allComponents (hd :: tl) = hd.components ++ allComponents tl := by
  rw [allComponents_eq_flatMap, allComponents_eq_flatMap, List.flatMap_cons]

theorem mem_allComponents {c : String} {mapping : List AggregationItem} :
    c ∈ allComponents mapping ↔
      ∃ it ∈ mapping, c ∈ it.components := by
  rw [allComponents_eq_flatMap, List.mem_flatMap]

/-- When the flattened component list has no duplicate, a source label `c`
determines the target name: any two items of the mapping whose components
contain `c` agree on `name`. -/
theorem name_unique {mapping : List AggregationItem}
    (h : (allComponents mapping).Nodup) {item it' : AggregationItem}
    (hm : item ∈ mapping) (hm' : it' ∈ mapping) {c : String}
    (hc : c ∈ item.components) (hc' : c ∈ it'.components) :
    it'.name = item.name := by
  induction mapping with
  | nil => simp at hm
  | cons hd tl ih =>
    rw [allComponents_cons, List.nodup_append] at h
    obtain ⟨hhd, htl, hdisj⟩ := h
    rcases List.mem_cons.mp hm with he | hmt
    · subst he
      rcases List.mem_cons.mp hm' with he' | hmt'
      · subst he'
        rfl
      · have hmem : c ∈ allComponents tl := mem_allComponents.mpr ⟨it', hmt', hc'⟩
        exact absurd hmem (hdisj hc)
    · rcases List.mem_cons.mp hm' with he' | hmt'
      · subst he'
        have hmem : c ∈ allComponents tl := mem_allComponents.mpr ⟨item, hmt, hc⟩
        exact absurd hmem (hdisj hc')
      · exact ih htl hmt hmt'

/-- Core correctness of `rename_mapping` under the component-uniqueness
invariant: each component of each item looks up to that item's name. -/
theorem lookup_renameMapping_of_nodup {mapping : List AggregationItem}
    (h : (allComponents mapping).Nodup) {item : AggregationItem}
    (hm : item ∈ mapping) {c : String} (hc : c ∈ item.components) :
    List.lookup c (renameMapping mapping) = some item.name := by
  rw [lookup_renameMapping]
  cases hf : mapping.reverse.find? (fun it => it.components.contains c) with
  | none =>
    rw [List.find?_eq_none] at hf
    exact absurd (by simpa [List.contains, List.elem_iff] using hc)
      (hf item (List.mem_reverse.mpr hm))
  | some it' =>
    have h1 := List.find?_some hf
    have h2 := List.mem_reverse.mp (List.mem_of_find?_eq_some hf)
    exact congrArg some
      (name_unique h hm h2 hc (by simpa [List.contains, List.elem_iff] using h1))

/-! ### Claim theorems -/

/-- Claim C1, counterexample. The claim states that EVERY failure during
`from_file` — including a missing `dimension` key and construction-time
validation conflicts — is re-raised as the generic wrapped load error
embedding the relative path. In the code, `return cls(...)` sits after the
`try`/`except` block, so with a file that parses fine but lacks the
`dimension` key, `mapping_input["dimension"]` raises a bare `KeyError`
that is not wrapped and carries no relative path. -/
theorem C1_counterexample :
    from_file (.ok ⟨none, some [[("T", ["a", "b"])]]⟩) "conf.yaml"
      = .error (.keyError "dimension")
    ∧ LoadErr.isWrapped (.keyError "dimension") = false :=
  ⟨rfl, rfl⟩

/-- Claim C1, amended: failures inside the `try` block of `from_file` —
file-not-found or malformed YAML (the `.error` read result), a missing
`aggregate` key, and a malformed `aggregate` element — are caught and
re-raised as a single generic load error whose message embeds the original
failure text and the file's relative path; but a missing `dimension` key
escapes as a bare `KeyError`, and a construction-time validation conflict
escapes as the structured conflict error, neither wrapped and neither
embedding the relative path in a load-error message. -/
theorem C1_from_file_wrapping (msg relpath dim : String) :
    from_file (.error msg) relpath
      = .error (.wrapped (msg ++ " in " ++ relpath))
    ∧ from_file (.ok ⟨some dim, none⟩) relpath
      = .error (.wrapped ("'aggregate'" ++ " in " ++ relpath))
    ∧ from_file (.ok ⟨some dim, some [[]]⟩) relpath
      = .error (.wrapped ("list index out of range" ++ " in " ++ relpath))
    ∧ from_file (.ok ⟨none, some [[("T", ["a"])]]⟩) relpath
      = .error (.keyError "dimension")
    ∧ from_file (.ok ⟨some dim, some [[("T", ["a"])], [("T", ["b"])]]⟩) relpath
      = .error (.conflict ⟨"target", ["T"], relpath⟩) :=
  ⟨rfl, rfl, rfl, rfl, rfl⟩

/-- Claim C2: for every `Aggregator` that passed construction-time
validation, every component `c` of every item of its mapping satisfies
`rename_mapping[c] == item.name`. -/
theorem C2_rename_mapping_correct (file dim : String)
    (mapping : List AggregationItem) (a : Aggregator)
    (h : Aggregator.construct file dim mapping = .ok a)
    (item : AggregationItem) (hm : item ∈ a.mapping)
    (c : String) (hc : c ∈ item.components) :
    List.lookup c a.rename_mapping = some item.name := by
  obtain ⟨ha, hn, hcn⟩ := construct_ok_inv h
  subst ha
  exact lookup_renameMapping_of_nodup hcn hm hc

/-- Witness for C2 at a concrete validated mapping. -/
theorem C2_witness :
    Aggregator.construct "f" "Sector"
        [⟨"Fossil", ["Coal", "Oil"]⟩, ⟨"Renewable", ["Solar"]⟩]
      = .ok ⟨"f", "Sector", [⟨"Fossil", ["Coal", "Oil"]⟩, ⟨"Renewable", ["Solar"]⟩]⟩
    ∧ List.lookup "Coal"
        (Aggregator.rename_mapping
          ⟨"f", "Sector", [⟨"Fossil", ["Coal", "Oil"]⟩, ⟨"Renewable", ["Solar"]⟩]⟩)
      = some "Fossil" :=
  ⟨rfl,
    C2_rename_mapping_correct "f" "Sector"
      [⟨"Fossil", ["Coal", "Oil"]⟩, ⟨"Renewable", ["Solar"]⟩]
      ⟨"f", "Sector", [⟨"Fossil", ["Coal", "Oil"]⟩, ⟨"Renewable", ["Solar"]⟩]⟩
      rfl ⟨"Fossil", ["Coal", "Oil"]⟩ (List.mem_cons_self _ _) "Coal"
      (List.mem_cons_self _ _)⟩

/-- Claim C3: a duplicated target name makes construction fail with a
conflict error of kind `target` whose duplicates contain exactly the names
occurring more than once (and carry the file); with pairwise-distinct
names the target-name check passes. -/
theorem C3_target_conflict (file dim : String)
    (mapping : List AggregationItem) :
    (¬ (mapping.map AggregationItem.name).Nodup →
      ∃ e, Aggregator.construct file dim mapping = .error e
        ∧ e.kind = "target" ∧ e.file = file
        ∧ ∀ x, x ∈ e.duplicates ↔
            1 < (mapping.map AggregationItem.name).count x)
    ∧ ((mapping.map AggregationItem.name).Nodup →
      validate_target_names mapping file = none) := by
  constructor
  · intro h
    exact ⟨_, construct_target_error h, rfl, rfl, fun x => mem_pyDuplicates⟩
  · intro h
    exact validate_items_eq_none.mpr h

/-- Witness for C3 at a concrete mapping with target name `Fossil` used
twice. -/
theorem C3_witness :
    ∃ e, Aggregator.construct "f" "d" [⟨"Fossil", ["a"]⟩, ⟨"Fossil", ["b"]⟩]
        = .error e
      ∧ e.kind = "target" ∧ e.file = "f"
      ∧ ∀ x, x ∈ e.duplicates ↔
          1 < (([⟨"Fossil", ["a"]⟩, ⟨"Fossil", ["b"]⟩] :
            List AggregationItem).map AggregationItem.name).count x :=
  (C3_target_conflict "f" "d" [⟨"Fossil", ["a"]⟩, ⟨"Fossil", ["b"]⟩]).1
    (by decide)

/-- Claim C4, counterexample. The claim quantifies over every mapping with
a duplicated source label, but when the mapping ALSO has a duplicated
target name, the target validator runs first and construction fails with
kind `target`, not `component`: here `"x"` is duplicated within one item's
components, yet the error kind is `target`. -/
theorem C4_counterexample :
    1 < (allComponents [⟨"A", ["x", "x"]⟩, ⟨"A", ["y"]⟩]).count "x"
    ∧ Aggregator.construct "f" "d" [⟨"A", ["x", "x"]⟩, ⟨"A", ["y"]⟩]
        = .error ⟨"target", ["A"], "f"⟩
    ∧ ("target" : String) ≠ "component" :=
  ⟨by decide, rfl, by decide⟩

/-- Claim C4, amended: for every mapping whose target names are pairwise
distinct, a source label occurring more than once in the concatenation of
all items' components — across items or within a single item's own list —
makes construction fail with a conflict error of kind `component` whose
duplicates contain exactly the labels occurring more than once. -/
theorem C4_component_conflict (file dim : String)
    (mapping : List AggregationItem)
    (hn : (mapping.map AggregationItem.name).Nodup)
    (hc : ¬ (allComponents mapping).Nodup) :
    ∃ e, Aggregator.construct file dim mapping = .error e
      ∧ e.kind = "component" ∧ e.file = file
      ∧ ∀ x, x ∈ e.duplicates ↔ 1 < (allComponents mapping).count x :=
  ⟨_, construct_component_error hn hc, rfl, rfl, fun x => mem_pyDuplicates⟩

/-- Witness for C4 (amended) at a concrete mapping where `Coal` is
repeated within one item's own component list. -/
theorem C4_witness :
    ∃ e, Aggregator.construct "f" "d" [⟨"Fossil", ["Coal", "Coal"]⟩]
        = .error e
      ∧ e.kind = "component" ∧ e.file = "f"
      ∧ ∀ x, x ∈ e.duplicates ↔
          1 < (allComponents [⟨"Fossil", ["Coal", "Coal"]⟩]).count x :=
  C4_component_conflict "f" "d" [⟨"Fossil", ["Coal", "Coal"]⟩]
    (by decide) (by decide)

/-- Claim C5, counterexample. The claim states that constructing a
`MappingItem` with empty `name` or empty `components` must fail; the
source class declares only `name: str` and `components: list[str]` with no
validator, so pydantic accepts both the empty string and the empty list —
at item construction and through full `Aggregator` construction. -/
theorem C5_counterexample :
    AggregationItem.construct "" [] = .ok ⟨"", []⟩
    ∧ Aggregator.construct "f" "d" [⟨"", []⟩] = .ok ⟨"f", "d", [⟨"", []⟩]⟩ :=
  ⟨rfl, rfl⟩

/-- Claim C5, amended: constructing an `AggregationItem` performs only the
declared type validation — any string `name` and any list `components`,
both possibly empty, are accepted, and an item with empty components also
passes full `Aggregator` construction. -/
theorem C5_no_emptiness_check (name file dim : String)
    (components : List String) :
    AggregationItem.construct name components = .ok ⟨name, components⟩
    ∧ Aggregator.construct file dim [⟨name, []⟩]
        = .ok ⟨file, dim, [⟨name, []⟩]⟩ := by
  refine ⟨rfl, construct_ok ?_ ?_⟩
  · simp
  · simp [allComponents]

/-- Claim C6: `apply` returns exactly the dataset's rename operation
invoked with the mapping `{dimension: rename_mapping}` and
`check_duplicates=False`; every cell is relabeled through `renamePair`,
and a value not present as a key of `rename_mapping` passes through
unchanged. The input dataset is untouched: in this functional embedding
`rename` builds a new `IamDataFrame` from `df.rows` and `apply` never
writes any field. -/
theorem C6_apply_rename (a : Aggregator) (df : IamDataFrame)
    (p : String × String)
    (hp : List.lookup p.2 a.rename_mapping = none) :
    a.apply df = df.rename [(a.dimension, a.rename_mapping)] false
    ∧ (a.apply df).rows = df.rows.map (renameRow a.dimension a.rename_mapping)
    ∧ renamePair a.dimension a.rename_mapping p = p := by
  refine ⟨rfl, ?_, ?_⟩
  · simp [Aggregator.apply, IamDataFrame.rename]
  · unfold renamePair
    rw [hp]
    by_cases hpd : p.1 = a.dimension
    · rw [if_pos hpd]
      exact Prod.mk.eta
    · rw [if_neg hpd]

/-- Witness for C6: the unmapped value `Nuclear` passes through
unchanged. -/
theorem C6_witness :
    List.lookup "Nuclear"
        (Aggregator.rename_mapping ⟨"f", "Sector", [⟨"Fossil", ["Coal"]⟩]⟩)
      = none
    ∧ ((⟨"f", "Sector", [⟨"Fossil", ["Coal"]⟩]⟩ : Aggregator).apply
          ⟨[[("Sector", "Coal"), ("Sector", "Nuclear")]]⟩
        = IamDataFrame.rename ⟨[[("Sector", "Coal"), ("Sector", "Nuclear")]]⟩
            [("Sector",
              Aggregator.rename_mapping ⟨"f", "Sector", [⟨"Fossil", ["Coal"]⟩]⟩)]
            false
      ∧ ((⟨"f", "Sector", [⟨"Fossil", ["Coal"]⟩]⟩ : Aggregator).apply
            ⟨[[("Sector", "Coal"), ("Sector", "Nuclear")]]⟩).rows
        = ([[("Sector", "Coal"), ("Sector", "Nuclear")]] :
            List (List (String × String))).map
            (renameRow "Sector"
              (Aggregator.rename_mapping ⟨"f", "Sector", [⟨"Fossil", ["Coal"]⟩]⟩))
      ∧ renamePair "Sector"
          (Aggregator.rename_mapping ⟨"f", "Sector", [⟨"Fossil", ["Coal"]⟩]⟩)
          ("Sector", "Nuclear")
        = ("Sector", "Nuclear")) :=
  ⟨rfl,
    C6_apply_rename ⟨"f", "Sector", [⟨"Fossil", ["Coal"]⟩]⟩
      ⟨[[("Sector", "Coal"), ("Sector", "Nuclear")]]⟩ ("Sector", "Nuclear")
      rfl⟩

/-- Claim C7: the loader takes each `aggregate` element's FIRST key/value
pair as the item's name and components; an element carrying further pairs
is not rejected and the extra pairs are ignored — end to end, a two-key
element loads successfully and only the first pair survives. -/
theorem C7_first_key_only (k : String) (v : List String)
    (extra : List (String × List String))
    (rest : List (List (String × List String))) :
    buildItems (((k, v) :: extra) :: rest)
      = (buildItems rest).map (fun items => ⟨k, v⟩ :: items)
    ∧ from_file (.ok ⟨some "d", some [[("T", ["a"]), ("U", ["b"])]]⟩) "f"
      = .ok ⟨"f", "d", [⟨"T", ["a"]⟩]⟩ := by
  constructor
  · cases h : buildItems rest <;> simp [buildItems, h, Except.map]
  · rfl

/-- Claim C8: `apply` only reads the `Aggregator` — in this functional
embedding it takes the instance as an immutable value and returns only a
new dataframe — and `rename_mapping` is a pure function of `mapping`,
recomputed on demand: two instances with the same `mapping` have the same
`rename_mapping` regardless of their other fields, and `apply` is
determined by `dimension` and `mapping` alone. -/
theorem C8_apply_pure (a a' : Aggregator) (df : IamDataFrame)
    (hmap : a.mapping = a'.mapping) :
    a.rename_mapping = a'.rename_mapping
    ∧ (a.dimension = a'.dimension → a.apply df = a'.apply df)
    ∧ a.apply df = df.rename [(a.dimension, a.rename_mapping)] false := by
  have h1 : a.rename_mapping = a'.rename_mapping := by
    unfold Aggregator.rename_mapping
    rw [hmap]
  refine ⟨h1, ?_, rfl⟩
  intro hd
  unfold Aggregator.apply
  rw [h1, hd]

/-- Witness for C8: two aggregators sharing `dimension` and `mapping` but
loaded from different files behave identically. -/
theorem C8_witness :
    Aggregator.rename_mapping ⟨"f1", "Sector", [⟨"T", ["a"]⟩]⟩
      = Aggregator.rename_mapping ⟨"f2", "Sector", [⟨"T", ["a"]⟩]⟩
    ∧ ((⟨"f1", "Sector", [⟨"T", ["a"]⟩]⟩ : Aggregator).dimension
          = (⟨"f2", "Sector", [⟨"T", ["a"]⟩]⟩ : Aggregator).dimension →
        (⟨"f1", "Sector", [⟨"T", ["a"]⟩]⟩ : Aggregator).apply ⟨[]⟩
          = (⟨"f2", "Sector", [⟨"T", ["a"]⟩]⟩ : Aggregator).apply ⟨[]⟩)
    ∧ (⟨"f1", "Sector", [⟨"T", ["a"]⟩]⟩ : Aggregator).apply ⟨[]⟩
      = IamDataFrame.rename ⟨[]⟩
          [("Sector", Aggregator.rename_mapping ⟨"f1", "Sector", [⟨"T", ["a"]⟩]⟩)]
          false :=
  C8_apply_pure ⟨"f1", "Sector", [⟨"T", ["a"]⟩]⟩
    ⟨"f2", "Sector", [⟨"T", ["a"]⟩]⟩ ⟨[]⟩ rfl

/-- Claim C9: when a mapping has both a duplicated target name and a
duplicated source label, construction raises only the `target` conflict:
the target-name validator runs first in the pydantic chain and the
component validator is never reached, so no error of kind `component` can
be observed. -/
theorem C9_target_before_component (file dim : String)
    (mapping : List AggregationItem)
    (ht : ¬ (mapping.map AggregationItem.name).Nodup)
    (hc : ¬ (allComponents mapping).Nodup) :
    Aggregator.construct file dim mapping
      = .error ⟨"target", pyDuplicates (mapping.map AggregationItem.name), file⟩
    ∧ ∀ e, Aggregator.construct file dim mapping = .error e →
        e.kind ≠ "component" := by
  have h := @construct_target_error file dim mapping ht
  refine ⟨h, ?_⟩
  intro e he
  rw [h] at he
  injection he with he
  rw [← he]
  show ("target" : String) ≠ "component"
  decide

/-- Witness for C9: `B` is a duplicated target and `z` a duplicated
component, and the only reported conflict is of kind `target`. -/
theorem C9_witness :
    Aggregator.construct "f" "d" [⟨"B", ["z", "z"]⟩, ⟨"B", ["w"]⟩]
      = .error ⟨"target",
          pyDuplicates (([⟨"B", ["z", "z"]⟩, ⟨"B", ["w"]⟩] :
            List AggregationItem).map AggregationItem.name), "f"⟩
    ∧ ∀ e, Aggregator.construct "f" "d" [⟨"B", ["z", "z"]⟩, ⟨"B", ["w"]⟩]
          = .error e → e.kind ≠ "component" :=
  C9_target_before_component "f" "d" [⟨"B", ["z", "z"]⟩, ⟨"B", ["w"]⟩]
    (by decide) (by decide)

/-- Claim C10: `rename_mapping`, viewed as a pure function of an arbitrary
item list, maps a source label `c` to the name of the LAST item (in list
order) whose components contain `c` — later dict insertions overwrite
earlier ones — and to nothing when no item contains `c`
(`find?` on the reversed list is exactly the last matching item). -/
theorem C10_last_item_wins (mapping : List AggregationItem) (c : String) :
    List.lookup c (renameMapping mapping)
      = (mapping.reverse.find? (fun it => it.components.contains c)).map
          AggregationItem.name :=
  lookup_renameMapping mapping c

end Nomenclature
